import Mathlib

/-!
# Gateway reverse-proxy client and shutdown coordinator

A shallow embedding of `gateway/types/proxy_client.go` and
`gateway/pkg/http/server.go`.

* Instants and durations are integers counting nanoseconds, as `time.Duration`
  does.
* The process-wide `http.DefaultClient` is an explicit `World` that the
  constructors read and write; a `*http.Client` is a `ClientRef` into it.
* The Go standard library (`context`, `net/http`) and the NATS round tripper
  are not part of the repository; they are modelled by their documented
  contracts, each definition saying which.
-/

namespace Faas

/-! ## Time -/

/-- A `time.Duration`: a signed count of nanoseconds. -/
abbrev Duration := Int

/-- A `time.Time`, as nanoseconds since a fixed epoch. -/
abbrev Time := Int

/-- The constant `time.Second`. -/
def Second : Duration := 1000000000

/-! ## Errors, contexts, requests and responses -/

/-- The `error` values the model distinguishes. -/
inductive Error where
  /-- The sentinel `http.ErrUseLastResponse`. -/
  | ErrUseLastResponse
  /-- The error `context.DeadlineExceeded`; its `Timeout()` method reports true. -/
  | DeadlineExceeded
  /-- The sentinel `http.ErrServerClosed`. -/
  | ErrServerClosed
  /-- The error of `net/http` for a redirect whose `Location` header `loc`
  does not parse ("failed to parse Location header"). -/
  | LocationParse (loc : String)
  /-- Any other error, by its message. -/
  | other (msg : String)
  deriving DecidableEq, Repr

/-- A `context.Context`, reduced to what `Do` reads and writes: its deadline
(`none` when `Deadline()` reports `ok = false`). Cancellation by the owner of
the context is outside the model. -/
structure Context where
  deadline : Option Time
  deriving DecidableEq, Repr

/-- The context `context.Background()`: never done, no deadline. -/
def Background : Context := ⟨none⟩

/-- The function `context.WithDeadline(parent, d)`: "returns a copy of the
parent context with the deadline adjusted to be no later than d. If the
parent's deadline is already earlier than d, WithDeadline(parent, d) is
semantically equivalent to parent." -/
def WithDeadline (parent : Context) (d : Time) : Context :=
  match parent.deadline with
  | some cur => if cur < d then parent else ⟨some d⟩
  | none => ⟨some d⟩

/-- The function `context.WithTimeout(parent, timeout)`, which is
`WithDeadline(parent, time.Now().Add(timeout))`; the clock reading `now` is
an argument. -/
def WithTimeout (parent : Context) (now : Time) (timeout : Duration) : Context :=
  WithDeadline parent (now + timeout)

/-- An `*http.Request`: method, URL, headers and the context it carries.
The body of a request is not modelled. -/
structure Request where
  Method : String
  URL : String
  Header : List (String × String)
  ctx : Context
  deriving DecidableEq, Repr

/-- The method `req.Context()`. -/
def Request.Context (req : Request) : Faas.Context := req.ctx

/-- The method `req.WithContext(ctx)`: a copy of the request carrying `ctx`. -/
def Request.WithContext (req : Request) (ctx : Faas.Context) : Request :=
  { req with ctx := ctx }

/-- An `*http.Response`: status code, headers and body. -/
structure Response where
  StatusCode : Nat
  Header : List (String × String)
  Body : String
  deriving DecidableEq, Repr

/-- The lookup `h.Get(key)` on a header list; the empty string when absent. -/
def headerGet (h : List (String × String)) (key : String) : String :=
  match h.find? (fun kv => kv.1 == key) with
  | some kv => kv.2
  | none => ""

/-! ## Transports -/

/-- The `net.Dialer` fields that `NewHTTPClientReverseProxy` sets. -/
structure Dialer where
  Timeout : Duration
  KeepAlive : Duration
  DualStack : Bool
  deriving DecidableEq, Repr

/-- The `http.Transport` fields that `NewHTTPClientReverseProxy` sets.
`ProxyFromEnvironment` records that `Proxy` is `http.ProxyFromEnvironment`,
and `DialContext` holds the dialer whose `DialContext` method is installed. -/
structure Transport where
  ProxyFromEnvironment : Bool
  DialContext : Dialer
  MaxIdleConns : Int
  MaxIdleConnsPerHost : Int
  IdleConnTimeout : Duration
  TLSHandshakeTimeout : Duration
  ExpectContinueTimeout : Duration
  deriving DecidableEq, Repr

/-- The configuration of a NATS round tripper: the server endpoint given with
`nrt.WithNatsServer` and the topic prefix given with `nrt.WithPrefix`. -/
structure NatsRoundTripper where
  NatsServer : String
  Prefix : String
  deriving DecidableEq, Repr

/-- The values an `http.RoundTripper` takes in this program: the standard
library's `http.DefaultTransport` (what a nil `Transport` field means), a
direct-dial `*http.Transport`, or the NATS bus tunnel. -/
inductive RoundTripper where
  | DefaultTransport
  | direct (t : Transport)
  | nats (n : NatsRoundTripper)
  deriving DecidableEq, Repr

/-- The two transport variants of the specification. -/
inductive Variant where
  | DirectDial
  | BusTunnel
  deriving DecidableEq, Repr

/-- The variant a round tripper belongs to. -/
def RoundTripper.variant : RoundTripper → Variant
  | .DefaultTransport => .DirectDial
  | .direct _ => .DirectDial
  | .nats _ => .BusTunnel

/-- What one call of `RoundTrip` would yield if left alone: after `latency`
nanoseconds, either a response or a transport error. -/
structure RoundTrip where
  latency : Nat
  result : Except Error Response

/-- The environment of a request: what each round tripper does with each
request; `respFirst`, how the runtime resolves the race when a response and
the expiry of the deadline fall on the same instant; `parseURL base ref`,
the method `URL.Parse` of `net/url` (the reference `ref` resolved against
`base`, `none` when `ref` does not parse); and `bodyRead`, how many bytes of
a response body the caller can still read once the context of the request
has been cancelled. -/
structure Env where
  backend : RoundTripper → Request → RoundTrip
  respFirst : Bool
  parseURL : String → String → Option String
  bodyRead : RoundTripper → Response → Nat

/-! ## The HTTP client of `net/http` -/

/-- The type of `Client.CheckRedirect`: given the upcoming request and the
requests made already, `none` (nil) to follow the redirect or an error. -/
abbrev CheckRedirectFn := Request → List Request → Option Error

/-- An `http.Client`: the fields the program writes. A nil `CheckRedirect`
is `none`; a nil `Transport` is `DefaultTransport`. The fields `Jar` and
`Timeout` keep their zero values throughout and are left out. -/
structure Client where
  Transport : RoundTripper
  CheckRedirect : Option CheckRedirectFn

/-- The pair `(*http.Response, error)` that `Do` returns, together with what
the model observes of the call: the requests handed to the transport, in
order, and the instant the call returns. -/
structure DoResult where
  resp : Option Response
  err : Option Error
  sent : List Request
  finished : Time

/-- One use of the transport under the request's context, which for an
outgoing request "controls the entire lifetime of a request and its
response" (`Request.WithContext`). A context whose deadline has been reached
is done, and the round trip ends with `context.DeadlineExceeded` then;
otherwise the outcome of the round trip is returned when it arrives. When
both fall on the same instant the environment decides. -/
def send (env : Env) (rt : RoundTripper) (now : Time) (req : Request) :
    Time × Except Error Response :=
  let r := env.backend rt req
  match req.ctx.deadline with
  | none => (now + r.latency, r.result)
  | some D =>
    if D ≤ now then (now, .error .DeadlineExceeded)
    else if now + r.latency < D then (now + r.latency, r.result)
    else if D < now + r.latency then (D, .error .DeadlineExceeded)
    else if env.respFirst then (now + r.latency, r.result)
    else (D, .error .DeadlineExceeded)

/-- The policy `defaultCheckRedirect` of `net/http`, used when
`CheckRedirect` is nil: stop after 10 consecutive requests. -/
def defaultCheckRedirect : CheckRedirectFn := fun _ via =>
  if via.length ≥ 10 then some (.other "stopped after 10 redirects") else none

/-- The method `c.checkRedirect(req, via)` of `net/http`. -/
def Client.checkRedirect (c : Client) (req : Request) (via : List Request) : Option Error :=
  match c.CheckRedirect with
  | some f => f req via
  | none => defaultCheckRedirect req via

/-- What `net/http` does with a response before it consults
`CheckRedirect`. -/
inductive Redirect where
  /-- The response is returned as it is: not a redirect. -/
  | stop
  /-- The `Location` header `loc` does not parse: the call fails. -/
  | badLocation (loc : String)
  /-- The request that would be issued next. -/
  | follow (next : Request)
  deriving DecidableEq, Repr

/-- Whether `redirectBehavior` of `net/http` reports `shouldRedirect`: 301,
302 and 303 always, 307 and 308 when a `Location` header is present. -/
def shouldRedirect (resp : Response) : Bool :=
  decide (resp.StatusCode = 301 ∨ resp.StatusCode = 302 ∨ resp.StatusCode = 303) ||
  (decide (resp.StatusCode = 307 ∨ resp.StatusCode = 308) &&
    decide (headerGet resp.Header "Location" ≠ ""))

/-- The steps of `net/http` between a response and the call of
`CheckRedirect`: a response that is not a redirect, or has no `Location`
header, is returned; the `Location` value is parsed against the URL of the
request, and the call fails when it does not parse; otherwise the next
request goes to the parsed URL, with the method kept for 307 and 308 and
turned into GET unless it is GET or HEAD for 301, 302 and 303, and with the
context of the original request. -/
def redirect (env : Env) (req : Request) (resp : Response) : Redirect :=
  if shouldRedirect resp then
    let loc := headerGet resp.Header "Location"
    if loc = "" then .stop
    else
      match env.parseURL req.URL loc with
      | none => .badLocation loc
      | some u =>
        if resp.StatusCode = 307 ∨ resp.StatusCode = 308 then
          .follow { req with URL := u }
        else
          .follow { req with
            URL := u,
            Method := if req.Method ≠ "GET" ∧ req.Method ≠ "HEAD" then "GET" else req.Method }
  else .stop

/-- The loop of `(*http.Client).Do`: send the request; on a transport error
return it with no response; a response that is not a redirect is returned;
a redirect whose `Location` does not parse fails with no response; otherwise
`CheckRedirect` is asked: "if CheckRedirect returns ErrUseLastResponse, then
the most recent response is returned with its body unclosed, along with a
nil error", any other error is returned together with the response, and nil
means the redirect is followed. `fuel` bounds the number of hops; `via` are
the requests made so far. -/
def Client.doLoop (env : Env) (c : Client) :
    Nat → Time → Request → List Request → DoResult
  | 0, now, _, via => ⟨none, some (.other "out of fuel"), via, now⟩
  | fuel + 1, now, req, via =>
    let reqs := via ++ [req]
    match send env c.Transport now req with
    | (t, .error e) => ⟨none, some e, reqs, t⟩
    | (t, .ok resp) =>
      match redirect env req resp with
      | .stop => ⟨some resp, none, reqs, t⟩
      | .badLocation loc => ⟨none, some (.LocationParse loc), reqs, t⟩
      | .follow next =>
        match c.checkRedirect next reqs with
        | some .ErrUseLastResponse => ⟨some resp, none, reqs, t⟩
        | some e => ⟨some resp, some e, reqs, t⟩
        | none => Client.doLoop env c fuel t next reqs

/-- The method `(*http.Client).Do`. -/
def Client.Do (env : Env) (c : Client) (fuel : Nat) (now : Time) (req : Request) : DoResult :=
  Client.doLoop env c fuel now req []

/-! ## The process-wide default client -/

/-- A `*http.Client`. The only client the program ever points to is the
package variable `http.DefaultClient`. -/
inductive ClientRef where
  | DefaultClient
  deriving DecidableEq, Repr

/-- The mutable package state of `net/http` that the program touches. -/
structure World where
  DefaultClient : Client

/-- The state at process start: `var DefaultClient = &Client{}`. -/
def World.init : World := ⟨⟨.DefaultTransport, none⟩⟩

/-- Dereference a client pointer. -/
def World.load (w : World) : ClientRef → Client
  | .DefaultClient => w.DefaultClient

/-- Write through a client pointer. -/
def World.store (w : World) : ClientRef → Client → World
  | .DefaultClient, c => { w with DefaultClient := c }

/-! ## The NATS round tripper -/

/-- The options of `nats-roundtripper` that the program passes. -/
inductive NrtOption where
  | WithNatsServer (s : String)
  | WithPrefix (p : String)
  deriving DecidableEq, Repr

/-- Apply one option to a configuration. -/
def NrtOption.apply : NrtOption → NatsRoundTripper → NatsRoundTripper
  | .WithNatsServer s, n => { n with NatsServer := s }
  | .WithPrefix p, n => { n with Prefix := p }

/-- What the model needs to know of the message bus and of the library: the
configuration a round tripper starts from before options are applied, and
which server endpoints accept a connection. -/
structure Nrt where
  defaults : NatsRoundTripper
  reach : String → Bool

/-- The function `nrt.Must(opts...)`: applies the options in order, connects
to the configured server and returns the round tripper; `none` stands for
the panic raised when the connection cannot be made. -/
def Nrt.Must (bus : Nrt) (opts : List NrtOption) : Option NatsRoundTripper :=
  let n := opts.foldl (fun acc o => o.apply acc) bus.defaults
  if bus.reach n.NatsServer then some n else none

/-- The call `fmt.Sprintf("%s:%d", address, port)`. -/
def sprintfAddrPort (address : String) (port : Int) : String :=
  address ++ ":" ++ toString port

/-! ## `proxy_client.go` -/

/-- The struct `HTTPClientReverseProxy`: proxy to a remote BaseURL using a
`http.Client`. -/
structure HTTPClientReverseProxy where
  client : ClientRef
  timeout : Duration
  deriving DecidableEq, Repr

/-- The closure both constructors install as `CheckRedirect`. -/
def useLastResponse : CheckRedirectFn := fun _req _via => some .ErrUseLastResponse

/-- The constructor `NewHTTPClientReverseProxy`. It returns the proxy and
the package state it leaves behind. -/
def NewHTTPClientReverseProxy (w : World) (_baseURL : String) (timeout : Duration)
    (maxIdleConns maxIdleConnsPerHost : Int) : HTTPClientReverseProxy × World :=
  let h : HTTPClientReverseProxy := { client := .DefaultClient, timeout := timeout }
  let w := w.store h.client { w.load h.client with CheckRedirect := some useLastResponse }
  let w := w.store h.client { w.load h.client with
    Transport := .direct
      { ProxyFromEnvironment := true
        DialContext := { Timeout := timeout, KeepAlive := timeout, DualStack := true }
        MaxIdleConns := maxIdleConns
        MaxIdleConnsPerHost := maxIdleConnsPerHost
        IdleConnTimeout := 90 * Second
        TLSHandshakeTimeout := 10 * Second
        ExpectContinueTimeout := 1 * Second } }
  (h, w)

/-- The constructor `NewNATSTransportClientReverseProxy`. The redirect policy
is installed before `nrt.Must` runs, so it is in place even when `Must`
panics and no proxy is returned. -/
def NewNATSTransportClientReverseProxy (bus : Nrt) (w : World) (_baseURL : String)
    (timeout : Duration) (address : String) (port : Int) :
    Option HTTPClientReverseProxy × World :=
  let h : HTTPClientReverseProxy := { client := .DefaultClient, timeout := timeout }
  let w := w.store h.client { w.load h.client with CheckRedirect := some useLastResponse }
  match bus.Must [.WithNatsServer (sprintfAddrPort address port), .WithPrefix "faas"] with
  | none => (none, w)
  | some rt => (some h, w.store h.client { w.load h.client with Transport := .nats rt })

/-- The method `Timeout`. -/
def HTTPClientReverseProxy.Timeout (c : HTTPClientReverseProxy) : Duration :=
  c.timeout

/-- What is left of a response once the context of its request has been
cancelled: status and headers, and of the body the bytes the caller can
still read. -/
def cancelled (env : Env) (rt : RoundTripper) (resp : Response) : Response :=
  { resp with Body := ⟨resp.Body.data.take (env.bodyRead rt resp)⟩ }

/-- The method `Do`: executes the request with the configured timeout. The
deferred `cancel()` runs when `Do` returns, so the caller receives the
response with the derived context already cancelled. -/
def HTTPClientReverseProxy.Do (c : HTTPClientReverseProxy) (w : World) (env : Env)
    (fuel : Nat) (now : Time) (req : Request) : DoResult :=
  let ctx := WithTimeout req.Context now c.Timeout
  let res := (w.load c.client).Do env fuel now (req.WithContext ctx)
  { res with resp := res.resp.map (cancelled env (w.load c.client).Transport) }

/-- The round tripper that `c.Do` hands requests to in state `w`. -/
def HTTPClientReverseProxy.transport (c : HTTPClientReverseProxy) (w : World) : RoundTripper :=
  (w.load c.client).Transport

/-- The redirect policy that `c.Do` consults in state `w`. -/
def HTTPClientReverseProxy.redirectPolicy (c : HTTPClientReverseProxy) (w : World) :
    CheckRedirectFn :=
  (w.load c.client).checkRedirect

/-! ## Programs over the proxy API -/

/-- One call of the exported API of `proxy_client.go`. `doReq i` calls `Do`
on the `i`-th proxy built so far. -/
inductive Op where
  | newHTTP (baseURL : String) (timeout : Duration) (maxIdleConns maxIdleConnsPerHost : Int)
  | newNATS (baseURL : String) (timeout : Duration) (address : String) (port : Int)
  | doReq (i : Nat) (fuel : Nat) (now : Time) (req : Request)

/-- The state of a program: the package state, the proxies built so far and
the results of the `Do` calls made so far. -/
structure Prog where
  world : World
  clients : List HTTPClientReverseProxy
  results : List DoResult

/-- The state before any call. -/
def Prog.init : Prog := ⟨World.init, [], []⟩

/-- Run one call. -/
def Prog.exec (bus : Nrt) (env : Env) (st : Prog) : Op → Prog
  | .newHTTP baseURL timeout mi mph =>
    let (h, w) := NewHTTPClientReverseProxy st.world baseURL timeout mi mph
    { st with world := w, clients := st.clients ++ [h] }
  | .newNATS baseURL timeout address port =>
    match NewNATSTransportClientReverseProxy bus st.world baseURL timeout address port with
    | (some h, w) => { st with world := w, clients := st.clients ++ [h] }
    | (none, w) => { st with world := w }
  | .doReq i fuel now req =>
    match st.clients.get? i with
    | some c => { st with results := st.results ++ [c.Do st.world env fuel now req] }
    | none => st

/-- Run a sequence of calls. -/
def Prog.run (bus : Nrt) (env : Env) (st : Prog) (ops : List Op) : Prog :=
  ops.foldl (Prog.exec bus env) st

/-! ## `server.go` -/

/-- An `*http.Server`, reduced to the field `ListenAndServe` reads. -/
structure Server where
  Addr : String
  deriving DecidableEq, Repr

/-- The lifecycle states of the specification. -/
inductive ServerLifecycleState where
  | Serving
  | ShuttingDown
  | Stopped
  deriving DecidableEq, Repr

/-- The position of a lifecycle state in the order
`Serving`, `ShuttingDown`, `Stopped`. -/
def ServerLifecycleState.rank : ServerLifecycleState → Nat
  | .Serving => 0
  | .ShuttingDown => 1
  | .Stopped => 2

/-- Where the goroutine started by `ListenAndServe` stands. -/
inductive Watcher where
  /-- Blocked on `<-ctx.Done()`. -/
  | waiting
  /-- Inside `srv.Shutdown(shutdownContext)`, the context built with timeout `grace`. -/
  | inShutdown (grace : Duration)
  /-- The call `srv.Shutdown` returned nil and the goroutine ended. -/
  | finished
  /-- The call `srv.Shutdown` returned `e` and `log.Fatal(e)` ran. -/
  | fatal (e : Error)
  deriving DecidableEq, Repr

/-- Where the calling goroutine stands. -/
inductive Serve where
  /-- Inside `srv.ListenAndServe()`. -/
  | running
  /-- The call `srv.ListenAndServe()` returned `e`, which `ListenAndServe`
  returned to its caller; `afterShutdown` tells whether `srv.Shutdown` had
  been invoked by then. -/
  | returned (e : Error) (afterShutdown : Bool)
  deriving DecidableEq, Repr

/-- The state of one run of `ListenAndServe`. -/
structure Coordinator where
  /-- Whether `ctx` has been cancelled. -/
  ctxDone : Bool
  watcher : Watcher
  serve : Serve
  /-- How many times `srv.Shutdown` has been invoked. -/
  shutdownCalls : Nat
  /-- Whether the process has been terminated (`log.Fatal` calls `os.Exit(1)`). -/
  exited : Bool
  /-- The lines written with the `log` package. -/
  log : List String
  deriving DecidableEq, Repr

/-- What can happen next: the environment cancels `ctx`, the goroutine gets
past `<-ctx.Done()` and invokes `srv.Shutdown`, `srv.Shutdown` returns (nil
or an error), or `srv.ListenAndServe` returns its error. -/
inductive Event where
  | cancel
  | wake
  | shutdownReturns (err : Option Error)
  | serveReturns (e : Error)
  deriving DecidableEq, Repr

/-- The function `ListenAndServe`, up to the point where both goroutines
block: the goroutine waits for `ctx.Done()`, the caller has logged the
address and is inside `srv.ListenAndServe()`. `ctxDone` tells whether `ctx`
was cancelled before the call. -/
def ListenAndServe (ctxDone : Bool) (srv : Server) : Coordinator :=
  { ctxDone := ctxDone
    watcher := .waiting
    serve := .running
    shutdownCalls := 0
    exited := false
    log := ["start listening for HTTP requests on " ++ srv.Addr] }

/-- One step of `ListenAndServe`; `none` when the event cannot happen in
the state. Nothing happens in a process that has exited. -/
def Coordinator.step (s : Coordinator) : Event → Option Coordinator
  | .cancel =>
    if s.exited then none else some { s with ctxDone := true }
  | .wake =>
    if s.exited then none
    else match s.watcher with
      | .waiting =>
        if s.ctxDone then
          some { s with watcher := .inShutdown (1 * Second), shutdownCalls := s.shutdownCalls + 1 }
        else none
      | _ => none
  | .shutdownReturns err =>
    if s.exited then none
    else match s.watcher with
      | .inShutdown _ =>
        match err with
        | none => some { s with watcher := .finished }
        | some e => some { s with watcher := .fatal e, exited := true, log := s.log ++ [toString (repr e)] }
      | _ => none
  | .serveReturns e =>
    if s.exited then none
    else match s.serve with
      | .running => some { s with serve := .returned e (decide (0 < s.shutdownCalls)) }
      | .returned _ _ => none

/-- Run a sequence of events; `none` when one of them cannot happen. -/
def Coordinator.run (s : Coordinator) : List Event → Option Coordinator
  | [] => some s
  | ev :: evs => (s.step ev).bind (fun s1 => Coordinator.run s1 evs)

/-- The value `ListenAndServe` has returned to its caller, if it has. -/
def Coordinator.returnValue (s : Coordinator) : Option Error :=
  match s.serve with
  | .running => none
  | .returned e _ => some e

/-- The lifecycle state a coordinator state stands for: `Stopped` once the
process has exited, the accept loop has ended without a shutdown, or
`srv.Shutdown` has returned; `ShuttingDown` while `srv.Shutdown` runs;
`Serving` before that. A server whose accept loop ended on its own (the
listener could not be opened, say) has nothing left to drain: it stays
`Stopped` when the goroutine later invokes `srv.Shutdown` on it. -/
def Coordinator.lifecycle (s : Coordinator) : ServerLifecycleState :=
  if s.exited then .Stopped
  else match s.serve, s.watcher with
    | .returned _ false, _ => .Stopped
    | _, .waiting => .Serving
    | _, .inShutdown _ => .ShuttingDown
    | _, .finished => .Stopped
    | _, .fatal _ => .Stopped

/-! ## Sample inputs -/

/-- The method `URL.Parse` on the references the sample inputs use: `%zz`
(invalid URL escape) and `:bad` (missing protocol scheme) do not parse, and
an absolute URL resolves to itself. -/
def sampleParseURL : String → String → Option String := fun _base ref =>
  if ref = "%zz" ∨ ref = ":bad" then none else some ref

/-- A GET request whose context has no deadline. -/
def sampleRequest : Request := ⟨"GET", "http://backend/function/echo", [], Background⟩

/-- A 200 response. -/
def sampleOK : Response := ⟨200, [], "ok"⟩

/-- A backend that answers 200 on every transport after `latency` nanoseconds. -/
def envAfter (latency : Nat) : Env :=
  { backend := fun _ _ => ⟨latency, .ok sampleOK⟩
    respFirst := false
    parseURL := sampleParseURL
    bodyRead := fun _ r => r.Body.length }

/-- A message bus that accepts every connection. -/
def sampleBus : Nrt := ⟨⟨"nats://localhost:4222", "nats"⟩, fun _ => true⟩

/-- A proxy with a timeout of two seconds. -/
def sampleProxy : HTTPClientReverseProxy := ⟨.DefaultClient, 2 * Second⟩

/-- The program that builds `sampleProxy` over direct dial. -/
def sampleOps : List Op := [.newHTTP "http://backend" (2 * Second) 1024 1024]

/-- A 302 response that points elsewhere. -/
def sampleRedirect : Response := ⟨302, [("Location", "http://elsewhere/")], ""⟩

/-- A backend that answers every request with `sampleRedirect` after one
microsecond. -/
def envRedirect : Env :=
  { backend := fun _ _ => ⟨1000, .ok sampleRedirect⟩
    respFirst := false
    parseURL := sampleParseURL
    bodyRead := fun _ r => r.Body.length }

/-- The construction of a second proxy, over the bus tunnel. -/
def sampleSecondNATS : Op := .newNATS "http://backend" (5 * Second) "nats" 4222

/-- The construction of a second proxy, over direct dial with other limits. -/
def sampleSecondHTTP : Op := .newHTTP "http://other" (5 * Second) 1 1

/-- A backend that answers 200 over direct dial and 502 over the bus. -/
def envByVariant : Env :=
  { backend := fun rt _ =>
      match rt.variant with
      | .DirectDial => ⟨1000, .ok sampleOK⟩
      | .BusTunnel => ⟨1000, .ok ⟨502, [], "bus"⟩⟩
    respFirst := false
    parseURL := sampleParseURL
    bodyRead := fun _ r => r.Body.length }

/-- A server listening on port 8080. -/
def sampleServer : Server := ⟨":8080"⟩

/-- What the lifecycle proofs carry along a run: `srv.Shutdown` has not been
invoked while the goroutine waits, has been invoked exactly once, with `ctx`
cancelled, afterwards, and runs under a grace period of one second. -/
def Coordinator.Inv (s : Coordinator) : Prop :=
  (s.watcher = .waiting → s.shutdownCalls = 0) ∧
  (s.watcher ≠ .waiting → s.shutdownCalls = 1 ∧ s.ctxDone = true) ∧
  (∀ g, s.watcher = .inShutdown g → g = 1000000000)

/-- The state of `ListenAndServe` on `sampleServer` once `ctx` has been
cancelled and the goroutine has invoked `srv.Shutdown`. -/
def sampleShuttingDown : Coordinator :=
  { ctxDone := true
    watcher := .inShutdown 1000000000
    serve := .running
    shutdownCalls := 1
    exited := false
    log := ["start listening for HTTP requests on :8080"] }

end Faas

namespace Faas

/-! ## Contexts and deadlines -/

theorem WithTimeout_deadline (parent : Context) (now : Time) (d : Duration) :
    (WithTimeout parent now d).deadline =
      some (match parent.deadline with
        | none => now + d
        | some D => min D (now + d)) := by
  unfold WithTimeout WithDeadline
  cases h : parent.deadline with
  | none => rfl
  | some D =>
    by_cases hlt : D < now + d
    · simp [hlt, h, min_eq_left (le_of_lt hlt)]
    · simp [hlt, min_eq_right (not_lt.mp hlt)]

theorem redirect_ctx (env : Env) (req next : Request) (resp : Response)
    (h : redirect env req resp = .follow next) : next.ctx = req.ctx := by
  unfold redirect at h
  by_cases h1 : shouldRedirect resp = true
  · by_cases h2 : headerGet resp.Header "Location" = ""
    · simp [h1, h2] at h
    · cases hp : env.parseURL req.URL (headerGet resp.Header "Location") with
      | none => simp [h1, h2, hp] at h
      | some u =>
        by_cases h3 : resp.StatusCode = 307 ∨ resp.StatusCode = 308
        · simp [h1, h2, hp, h3] at h
          subst h
          rfl
        · simp [h1, h2, hp, h3] at h
          subst h
          rfl
  · simp [h1] at h

theorem doLoop_sent_ctx (env : Env) (cl : Client) (fuel : Nat) :
    ∀ (now : Time) (req : Request) (via : List Request) (ctx : Context),
      req.ctx = ctx → (∀ r ∈ via, r.ctx = ctx) →
      ∀ r ∈ (Client.doLoop env cl fuel now req via).sent, r.ctx = ctx := by
  induction fuel with
  | zero => intro now req via ctx _ hvia r hr; exact hvia r (by simpa [Client.doLoop] using hr)
  | succ n ih =>
    intro now req via ctx hreq hvia
    have hreqs : ∀ r ∈ via ++ [req], r.ctx = ctx := by
      intro r hr
      rcases List.mem_append.mp hr with h | h
      · exact hvia r h
      · simp at h; subst h; exact hreq
    unfold Client.doLoop
    simp only
    split
    · exact hreqs
    · split
      · exact hreqs
      · exact hreqs
      · rename_i next hnext
        split
        · exact hreqs
        · exact hreqs
        · exact ih _ next _ ctx ((redirect_ctx _ _ _ _ hnext).trans hreq) hreqs

theorem doLoop_sent_ne_nil (env : Env) (cl : Client) (fuel : Nat) :
    ∀ (now : Time) (req : Request) (via : List Request),
      (Client.doLoop env cl (fuel + 1) now req via).sent ≠ [] := by
  induction fuel with
  | zero =>
    intro now req via
    unfold Client.doLoop
    simp only
    split
    · simp
    · split
      · simp
      · simp
      · split <;> simp [Client.doLoop]
  | succ n ih =>
    intro now req via
    unfold Client.doLoop
    simp only
    split
    · simp
    · split
      · simp
      · simp
      · split
        · simp
        · simp
        · exact ih _ _ _

/-- C1: every request that `Do` hands to the transport (and there is at least
one) carries the deadline `min D (now + d)` when the caller's context has the
deadline `D`, and `now + d` when it has none, `d` being the configured
timeout; that deadline is never later than `now + d` and never later than the
caller's own deadline. -/
theorem Do_deadline_is_min (c : HTTPClientReverseProxy) (w : World) (env : Env)
    (fuel : Nat) (now : Time) (req : Request) :
    (c.Do w env (fuel + 1) now req).sent ≠ [] ∧
    ∀ r ∈ (c.Do w env (fuel + 1) now req).sent,
      r.ctx.deadline =
          some (match req.ctx.deadline with
            | none => now + c.Timeout
            | some D => min D (now + c.Timeout)) ∧
      (∀ T, r.ctx.deadline = some T →
        T ≤ now + c.Timeout ∧ ∀ D, req.ctx.deadline = some D → T ≤ D) := by
  have hsent : (c.Do w env (fuel + 1) now req).sent =
      (Client.doLoop env (w.load c.client) (fuel + 1) now
        (req.WithContext (WithTimeout req.Context now c.Timeout)) []).sent := rfl
  rw [hsent]
  refine ⟨doLoop_sent_ne_nil _ _ _ _ _ _, ?_⟩
  intro r hr
  have hctx : r.ctx = WithTimeout req.ctx now c.Timeout :=
    doLoop_sent_ctx env (w.load c.client) (fuel + 1) now _ [] _ rfl (by simp) r hr
  have hd := WithTimeout_deadline req.ctx now c.Timeout
  rw [hctx]
  refine ⟨hd, ?_⟩
  intro T hT
  rw [hd] at hT
  cases hD : req.ctx.deadline with
  | none =>
    simp [hD] at hT
    subst hT
    exact ⟨le_refl _, by intro D h; cases h⟩
  | some D0 =>
    simp [hD] at hT
    subst hT
    exact ⟨min_le_right _ _, by intro D h; cases h; exact min_le_left _ _⟩

end Faas

namespace Faas

/-! ## What the constructors leave in the default client -/

theorem NewNATS_policy (bus : Nrt) (w : World) (baseURL : String) (d : Duration)
    (a : String) (p : Int) :
    (NewNATSTransportClientReverseProxy bus w baseURL d a p).2.DefaultClient.CheckRedirect =
      some useLastResponse := by
  unfold NewNATSTransportClientReverseProxy
  simp only
  split <;> simp [World.store, World.load]

end Faas

namespace Faas

/-! ## Timeouts -/

end Faas

namespace Faas

/-! ## Redirects -/

/-- Without the policy of the constructors the model does follow redirects:
the untouched default client issues a second request after a 302. -/
theorem default_client_follows_redirect :
    ((World.init.load .DefaultClient).Do envRedirect 2 0 sampleRequest).sent.length = 2 := by
  decide

end Faas

namespace Faas

/-! ## The shared default client -/

/-- C4 fails: after `sampleProxy` is built over direct dial, building a second
proxy over the bus tunnel makes `sampleProxy.Do` forward over the bus tunnel
(the same request that was answered 200 is now answered 502), and building a
second direct-dial proxy with other idle limits replaces the limits that
`sampleProxy.Do` runs under. -/
theorem second_constructor_replaces_transport :
    (Prog.run sampleBus envByVariant Prog.init sampleOps).clients = [sampleProxy] ∧
    (sampleProxy.transport (Prog.run sampleBus envByVariant Prog.init sampleOps).world).variant
      = .DirectDial ∧
    (sampleProxy.transport
      (Prog.run sampleBus envByVariant Prog.init (sampleOps ++ [sampleSecondNATS])).world).variant
      = .BusTunnel ∧
    ((sampleProxy.Do (Prog.run sampleBus envByVariant Prog.init sampleOps).world
      envByVariant 1 0 sampleRequest).resp.map Response.StatusCode) = some 200 ∧
    ((sampleProxy.Do
      (Prog.run sampleBus envByVariant Prog.init (sampleOps ++ [sampleSecondNATS])).world
      envByVariant 1 0 sampleRequest).resp.map Response.StatusCode) = some 502 ∧
    sampleProxy.transport
      (Prog.run sampleBus envByVariant Prog.init (sampleOps ++ [sampleSecondHTTP])).world ≠
    sampleProxy.transport (Prog.run sampleBus envByVariant Prog.init sampleOps).world := by
  decide

/-- C4 as amended: every proxy points to the one default client, so after a
constructor call the transport of any proxy `c` is the transport that call
installed (the direct-dial transport built from its arguments, or the bus
tunnel for `address:port` with prefix `faas`), a construction over the bus
that panics leaves the transport of `c` as it was, and in every case the
redirect policy of `c` is the policy of the constructors. -/
theorem constructors_share_default_client (bus : Nrt) (w : World)
    (c : HTTPClientReverseProxy) :
    (∀ (baseURL : String) (d : Duration) (mi mph : Int),
      c.transport (NewHTTPClientReverseProxy w baseURL d mi mph).2 =
        (NewHTTPClientReverseProxy w baseURL d mi mph).1.transport
          (NewHTTPClientReverseProxy w baseURL d mi mph).2 ∧
      c.transport (NewHTTPClientReverseProxy w baseURL d mi mph).2 =
        .direct ⟨true, ⟨d, d, true⟩, mi, mph, 90000000000, 10000000000, 1000000000⟩ ∧
      ∀ req via, c.redirectPolicy (NewHTTPClientReverseProxy w baseURL d mi mph).2 req via =
        some .ErrUseLastResponse) ∧
    (∀ (baseURL : String) (d : Duration) (a : String) (p : Int),
      (∀ h, (NewNATSTransportClientReverseProxy bus w baseURL d a p).1 = some h →
        c.transport (NewNATSTransportClientReverseProxy bus w baseURL d a p).2 =
          h.transport (NewNATSTransportClientReverseProxy bus w baseURL d a p).2 ∧
        c.transport (NewNATSTransportClientReverseProxy bus w baseURL d a p).2 =
          .nats ⟨a ++ ":" ++ toString p, "faas"⟩) ∧
      ((NewNATSTransportClientReverseProxy bus w baseURL d a p).1 = none →
        c.transport (NewNATSTransportClientReverseProxy bus w baseURL d a p).2 =
          c.transport w) ∧
      ∀ req via,
        c.redirectPolicy (NewNATSTransportClientReverseProxy bus w baseURL d a p).2 req via =
          some .ErrUseLastResponse) := by
  obtain ⟨cl, d0⟩ := c
  cases cl
  constructor
  · intro baseURL d mi mph
    refine ⟨rfl, ?_, ?_⟩
    · simp [HTTPClientReverseProxy.transport, NewHTTPClientReverseProxy, World.load,
        World.store, Second]
    · intro req via
      simp [HTTPClientReverseProxy.redirectPolicy, Client.checkRedirect,
        NewHTTPClientReverseProxy, World.load, World.store, useLastResponse]
  · intro baseURL d a p
    refine ⟨?_, ?_, ?_⟩
    · intro h hh
      obtain ⟨hcl, hd⟩ := h
      cases hcl
      refine ⟨rfl, ?_⟩
      revert hh
      simp only [NewNATSTransportClientReverseProxy, Nrt.Must, List.foldl, NrtOption.apply,
        sprintfAddrPort]
      split_ifs with hr
      · intro _
        simp [HTTPClientReverseProxy.transport, World.load, World.store]
      · intro hh; simp at hh
    · simp only [NewNATSTransportClientReverseProxy, Nrt.Must, List.foldl, NrtOption.apply]
      split_ifs with hr
      · intro hh; simp at hh
      · intro _
        simp [HTTPClientReverseProxy.transport, World.load, World.store]
    · intro req via
      have hp := NewNATS_policy bus w baseURL d a p
      simp only [HTTPClientReverseProxy.redirectPolicy, Client.checkRedirect, World.load, hp]
      rfl

end Faas

namespace Faas

/-! ## The timeout of a proxy -/

theorem exec_keeps_clients (bus : Nrt) (env : Env) (st : Prog) (op : Op) (i : Nat)
    (c : HTTPClientReverseProxy) (h : st.clients.get? i = some c) :
    (Prog.exec bus env st op).clients.get? i = some c := by
  have happ : ∀ x, (st.clients ++ [x]).get? i = some c := by
    intro x
    simp only [List.get?_eq_getElem?] at h ⊢
    rw [List.getElem?_append_left (List.getElem?_eq_some_iff.mp h).1]
    exact h
  cases op with
  | newHTTP baseURL d mi mph => exact happ _
  | newNATS baseURL d a p =>
    simp only [Prog.exec]
    split
    · exact happ _
    · exact h
  | doReq j fuel now req =>
    simp only [Prog.exec]
    split <;> exact h

theorem run_keeps_clients (bus : Nrt) (env : Env) (ops : List Op) :
    ∀ (st : Prog) (i : Nat) (c : HTTPClientReverseProxy),
      st.clients.get? i = some c → (Prog.run bus env st ops).clients.get? i = some c := by
  induction ops with
  | nil => intro st i c h; exact h
  | cons op ops ih =>
    intro st i c h
    exact ih _ i c (exec_keeps_clients bus env st op i c h)

/-- C6: a proxy built with timeout `d` by either constructor reports
`Timeout() = d`, and it is still in the program's state, reporting `d`,
after any further sequence of calls (calls to `Do` on any proxy and
constructor calls alike). -/
theorem Timeout_is_fixed (bus : Nrt) (env : Env) (st : Prog) (ops : List Op)
    (baseURL : String) (d : Duration) :
    (∀ (mi mph : Int),
      (NewHTTPClientReverseProxy st.world baseURL d mi mph).1.Timeout = d ∧
      ((Prog.run bus env (Prog.exec bus env st (.newHTTP baseURL d mi mph)) ops).clients.get?
        st.clients.length).map HTTPClientReverseProxy.Timeout = some d) ∧
    (∀ (a : String) (p : Int) (h : HTTPClientReverseProxy),
      (NewNATSTransportClientReverseProxy bus st.world baseURL d a p).1 = some h →
      h.Timeout = d ∧
      ((Prog.run bus env (Prog.exec bus env st (.newNATS baseURL d a p)) ops).clients.get?
        st.clients.length).map HTTPClientReverseProxy.Timeout = some d) := by
  constructor
  · intro mi mph
    refine ⟨rfl, ?_⟩
    rw [run_keeps_clients bus env ops _ st.clients.length
      (NewHTTPClientReverseProxy st.world baseURL d mi mph).1 (by simp [Prog.exec])]
    rfl
  · intro a p h hh
    have hd : h.Timeout = d := by
      revert hh
      simp only [NewNATSTransportClientReverseProxy]
      split
      · intro hh; simp at hh
      · intro hh; simp at hh; rw [← hh]; rfl
    refine ⟨hd, ?_⟩
    rw [run_keeps_clients bus env ops _ st.clients.length h (by
      simp only [Prog.exec]
      split
      · rename_i h1 w1 heq
        rw [heq] at hh
        simp at hh
        simp [hh]
      · rename_i w1 heq
        rw [heq] at hh
        simp at hh)]
    simp [hd]

/-- C6 on a run: a proxy built with two seconds still reports two seconds
after three calls to `Do` and the construction of another proxy. -/
theorem Timeout_is_fixed_witness :
    ((Prog.run sampleBus (envAfter 5) Prog.init
      (sampleOps ++ [.doReq 0 1 0 sampleRequest, .doReq 0 1 7 sampleRequest, sampleSecondNATS,
        .doReq 0 1 9 sampleRequest])).clients.get? 0).map HTTPClientReverseProxy.Timeout
      = some 2000000000 :=
  ((Timeout_is_fixed sampleBus (envAfter 5) Prog.init
    [.doReq 0 1 0 sampleRequest, .doReq 0 1 7 sampleRequest, sampleSecondNATS,
      .doReq 0 1 9 sampleRequest] "http://backend" (2 * Second)).1 1024 1024).2

/-- C7 fails: both constructors return a proxy when given the timeout zero or
a negative one, and the proxy reports that timeout. -/
theorem constructors_accept_nonpositive_timeout :
    (NewHTTPClientReverseProxy World.init "http://backend" 0 1024 1024).1.Timeout = 0 ∧
    (NewHTTPClientReverseProxy World.init "http://backend" (-5) 1024 1024).1.Timeout = -5 ∧
    ((NewNATSTransportClientReverseProxy sampleBus World.init "http://backend" 0
      "nats" 4222).1.map HTTPClientReverseProxy.Timeout) = some 0 := by
  decide

/-- C7 as amended: the constructors do not validate the timeout. The
direct-dial constructor always returns a proxy, the bus constructor returns
one exactly when the bus endpoint `address:port` can be reached, and the
proxy returned reports the timeout it was given, so that its timeout is
strictly positive exactly when the argument is. -/
theorem Timeout_positive_iff_argument (bus : Nrt) (w : World) (baseURL : String)
    (d : Duration) :
    (∀ (mi mph : Int),
      (NewHTTPClientReverseProxy w baseURL d mi mph).1.Timeout = d ∧
      (0 < (NewHTTPClientReverseProxy w baseURL d mi mph).1.Timeout ↔ 0 < d)) ∧
    (∀ (a : String) (p : Int),
      ((NewNATSTransportClientReverseProxy bus w baseURL d a p).1.isSome =
        bus.reach (a ++ ":" ++ toString p)) ∧
      ∀ h, (NewNATSTransportClientReverseProxy bus w baseURL d a p).1 = some h →
        h.Timeout = d ∧ (0 < h.Timeout ↔ 0 < d)) := by
  constructor
  · intro mi mph
    exact ⟨rfl, Iff.rfl⟩
  · intro a p
    simp only [NewNATSTransportClientReverseProxy, Nrt.Must, List.foldl, NrtOption.apply,
      sprintfAddrPort]
    split_ifs with hr
    · refine ⟨by simp [hr], ?_⟩
      intro h hh
      simp at hh
      subst hh
      exact ⟨rfl, Iff.rfl⟩
    · refine ⟨by simp [hr], ?_⟩
      intro h hh
      simp at hh

/-! ## The two transports -/

/-- C8: the transport that `NewHTTPClientReverseProxy` installs, and that
the returned proxy uses, dials with timeout `d` and keep-alive `d` on both
address families, keeps at most `maxIdleConns` idle connections and
`maxIdleConnsPerHost` per host, and has an idle timeout of 90 seconds, a TLS
handshake timeout of 10 seconds and an expect-continue timeout of 1 second
(in nanoseconds), whatever the arguments and the earlier state. -/
theorem NewHTTP_transport_settings (w : World) (baseURL : String) (d : Duration)
    (maxIdleConns maxIdleConnsPerHost : Int) :
    Second = 1000000000 ∧
    ∃ t : Transport,
      (NewHTTPClientReverseProxy w baseURL d maxIdleConns maxIdleConnsPerHost).1.transport
        (NewHTTPClientReverseProxy w baseURL d maxIdleConns maxIdleConnsPerHost).2 = .direct t ∧
      t.DialContext.Timeout = d ∧ t.DialContext.KeepAlive = d ∧
      t.DialContext.DualStack = true ∧
      t.MaxIdleConns = maxIdleConns ∧ t.MaxIdleConnsPerHost = maxIdleConnsPerHost ∧
      t.IdleConnTimeout = 90000000000 ∧ t.TLSHandshakeTimeout = 10000000000 ∧
      t.ExpectContinueTimeout = 1000000000 ∧ t.ProxyFromEnvironment = true := by
  refine ⟨rfl, _, rfl, rfl, rfl, rfl, rfl, rfl, ?_, ?_, ?_, rfl⟩ <;> simp [Second]

/-- The endpoint string for a few addresses and ports, negative port included. -/
theorem sprintfAddrPort_examples :
    sprintfAddrPort "nats" 4222 = "nats:4222" ∧
    sprintfAddrPort "10.0.0.7" 0 = "10.0.0.7:0" ∧
    sprintfAddrPort "" (-1) = ":-1" := by
  decide

/-- C10: `NewNATSTransportClientReverseProxy` asks the bus for the endpoint
`address`, a colon, `port` in decimal: it returns a proxy exactly when that
endpoint can be reached, and the transport it then installs, and the proxy
uses, is the bus tunnel with that endpoint and the prefix `faas`, whatever
the library defaults, the earlier state, the base URL and the timeout. -/
theorem NewNATS_endpoint_and_prefix (bus : Nrt) (w : World) (baseURL : String)
    (d : Duration) (a : String) (p : Int) :
    sprintfAddrPort a p = a ++ ":" ++ toString p ∧
    ((NewNATSTransportClientReverseProxy bus w baseURL d a p).1.isSome =
      bus.reach (a ++ ":" ++ toString p)) ∧
    (∀ h, (NewNATSTransportClientReverseProxy bus w baseURL d a p).1 = some h →
      h.transport (NewNATSTransportClientReverseProxy bus w baseURL d a p).2 =
        .nats ⟨a ++ ":" ++ toString p, "faas"⟩) ∧
    (∀ (w1 : World) (baseURL1 : String) (d1 : Duration),
      (NewNATSTransportClientReverseProxy bus w1 baseURL1 d1 a p).2.DefaultClient.Transport =
        .nats ⟨a ++ ":" ++ toString p, "faas"⟩ ∨
      (NewNATSTransportClientReverseProxy bus w1 baseURL1 d1 a p).1 = none) := by
  refine ⟨rfl, ?_, ?_, ?_⟩
  · simp only [NewNATSTransportClientReverseProxy, Nrt.Must, List.foldl, NrtOption.apply,
      sprintfAddrPort]
    split_ifs with hr <;> simp [hr]
  · intro h
    simp only [NewNATSTransportClientReverseProxy, Nrt.Must, List.foldl, NrtOption.apply,
      sprintfAddrPort]
    split_ifs with hr
    · intro hh
      simp at hh
      subst hh
      simp [HTTPClientReverseProxy.transport, World.load, World.store]
    · intro hh; simp at hh
  · intro w1 baseURL1 d1
    simp only [NewNATSTransportClientReverseProxy, Nrt.Must, List.foldl, NrtOption.apply,
      sprintfAddrPort]
    split_ifs with hr
    · left; simp [World.load, World.store]
    · right; rfl

end Faas

namespace Faas

/-! ## The shutdown coordinator -/

theorem ListenAndServe_inv (ctxDone : Bool) (srv : Server) :
    (ListenAndServe ctxDone srv).Inv := by
  refine ⟨fun _ => rfl, fun h => absurd rfl h, ?_⟩
  intro g h
  simp [ListenAndServe] at h

theorem step_inv (s s1 : Coordinator) (ev : Event) (hi : s.Inv) (h : s.step ev = some s1) :
    s1.Inv := by
  obtain ⟨cd, wt, sv, n, ex, lg⟩ := s
  obtain ⟨h1, h2, h3⟩ := hi
  simp only at h1 h2 h3
  cases ev with
  | cancel =>
    simp only [Coordinator.step] at h
    split_ifs at h
    simp at h
    subst h
    exact ⟨h1, fun hw => ⟨(h2 hw).1, rfl⟩, h3⟩
  | wake =>
    simp only [Coordinator.step] at h
    split_ifs at h with hex hc
    · cases wt <;> simp at h
      subst h
      refine ⟨?_, ?_, ?_⟩
      · intro hw1; simp at hw1
      · intro _
        exact ⟨by simp [h1 rfl], hc⟩
      · intro g hg
        simp [Second] at hg
        exact hg.symm
    · cases wt <;> simp at h
  | shutdownReturns err =>
    simp only [Coordinator.step] at h
    split_ifs at h with hex
    cases wt <;> simp at h
    rename_i g
    have hne := h2 (by simp)
    cases err with
    | none =>
      simp at h
      subst h
      exact ⟨by intro hw1; simp at hw1, fun _ => hne, by intro g hg; simp at hg⟩
    | some e =>
      simp at h
      subst h
      exact ⟨by intro hw1; simp at hw1, fun _ => hne, by intro g hg; simp at hg⟩
  | serveReturns e =>
    simp only [Coordinator.step] at h
    split_ifs at h with hex
    cases sv <;> simp at h
    subst h
    exact ⟨h1, h2, h3⟩

theorem run_inv (evs : List Event) :
    ∀ s s1 : Coordinator, s.Inv → s.run evs = some s1 → s1.Inv := by
  induction evs with
  | nil =>
    intro s s1 hi h
    simp [Coordinator.run] at h
    subst h
    exact hi
  | cons ev evs ih =>
    intro s s1 hi h
    simp only [Coordinator.run] at h
    cases hs : s.step ev with
    | none => simp [hs] at h
    | some s2 =>
      simp [hs] at h
      exact ih s2 s1 (step_inv s s2 ev hi hs) h

theorem step_rank (s s1 : Coordinator) (ev : Event) (h : s.step ev = some s1) :
    s.lifecycle.rank ≤ s1.lifecycle.rank := by
  obtain ⟨cd, wt, sv, n, ex, lg⟩ := s
  cases ev with
  | cancel =>
    simp only [Coordinator.step] at h
    split_ifs at h
    simp at h
    subst h
    exact le_refl _
  | wake =>
    simp only [Coordinator.step] at h
    split_ifs at h with hex hc
    · simp only [Bool.not_eq_true] at hex
      subst hex
      cases wt <;> simp at h
      subst h
      cases sv with
      | running => simp [Coordinator.lifecycle, ServerLifecycleState.rank]
      | returned e b => cases b <;> simp [Coordinator.lifecycle, ServerLifecycleState.rank]
    · cases wt <;> simp at h
  | shutdownReturns err =>
    simp only [Coordinator.step] at h
    split_ifs at h with hex
    simp only [Bool.not_eq_true] at hex
    subst hex
    cases wt <;> simp at h
    cases err with
    | none =>
      simp at h
      subst h
      cases sv with
      | running => simp [Coordinator.lifecycle, ServerLifecycleState.rank]
      | returned e b => cases b <;> simp [Coordinator.lifecycle, ServerLifecycleState.rank]
    | some e =>
      simp at h
      subst h
      cases sv with
      | running => simp [Coordinator.lifecycle, ServerLifecycleState.rank]
      | returned e b => cases b <;> simp [Coordinator.lifecycle, ServerLifecycleState.rank]
  | serveReturns e =>
    simp only [Coordinator.step] at h
    split_ifs at h with hex
    simp only [Bool.not_eq_true] at hex
    subst hex
    cases sv <;> simp at h
    subst h
    by_cases hn : 0 < n
    · cases wt <;> simp [Coordinator.lifecycle, ServerLifecycleState.rank, hn]
    · cases wt <;> simp [Coordinator.lifecycle, ServerLifecycleState.rank, hn]

theorem step_serving_to_shuttingDown (s s1 : Coordinator) (ev : Event)
    (h : s.step ev = some s1) (h0 : s.lifecycle = .Serving) (h1 : s1.lifecycle = .ShuttingDown) :
    ev = .wake ∧ s.ctxDone = true ∧ s1.shutdownCalls = s.shutdownCalls + 1 ∧
      s1.watcher = .inShutdown 1000000000 := by
  obtain ⟨cd, wt, sv, n, ex, lg⟩ := s
  cases ev with
  | cancel =>
    simp only [Coordinator.step] at h
    split_ifs at h
    simp at h
    subst h
    simp [Coordinator.lifecycle] at h0 h1
    rw [h0] at h1
    cases h1
  | wake =>
    simp only [Coordinator.step] at h
    split_ifs at h with hex hc
    · cases wt <;> simp at h
      subst h
      exact ⟨rfl, hc, rfl, by simp [Second]⟩
    · cases wt <;> simp at h
  | shutdownReturns err =>
    simp only [Coordinator.step] at h
    split_ifs at h with hex
    simp only [Bool.not_eq_true] at hex
    subst hex
    cases wt <;> simp at h
    cases sv with
    | running => simp [Coordinator.lifecycle] at h0
    | returned e b => cases b <;> simp [Coordinator.lifecycle] at h0
  | serveReturns e =>
    simp only [Coordinator.step] at h
    split_ifs at h with hex
    simp only [Bool.not_eq_true] at hex
    subst hex
    cases sv <;> simp at h
    subst h
    cases wt <;> simp [Coordinator.lifecycle] at h0
    by_cases hn : 0 < n <;> simp [Coordinator.lifecycle, hn] at h1

end Faas

namespace Faas

/-- C9: `ListenAndServe` starts in `Serving`. In every state a run reaches,
`srv.Shutdown` has been invoked at most once, only with `ctx` cancelled, and
under a grace period of exactly one second, whatever the server and the
context. Every step from such a state keeps or advances the lifecycle state;
a step from `Serving` to `ShuttingDown` is the goroutine getting past
`ctx.Done()` with `ctx` cancelled, it is the first invocation of
`srv.Shutdown`, and no step invokes `srv.Shutdown` while `ctx` is live. -/
theorem ListenAndServe_lifecycle_forward (ctxDone : Bool) (srv : Server) (evs : List Event)
    (s : Coordinator) (hs : (ListenAndServe ctxDone srv).run evs = some s) :
    (ListenAndServe ctxDone srv).lifecycle = .Serving ∧
    s.shutdownCalls ≤ 1 ∧
    (0 < s.shutdownCalls → s.ctxDone = true) ∧
    (∀ g, s.watcher = .inShutdown g → g = 1000000000) ∧
    ∀ (ev : Event) (s1 : Coordinator), s.step ev = some s1 →
      s.lifecycle.rank ≤ s1.lifecycle.rank ∧
      (s.lifecycle = .Serving → s1.lifecycle = .ShuttingDown →
        ev = .wake ∧ s.ctxDone = true ∧ s.shutdownCalls = 0 ∧ s1.shutdownCalls = 1 ∧
        s1.watcher = .inShutdown 1000000000) ∧
      (s.shutdownCalls < s1.shutdownCalls → s.ctxDone = true ∧ s.shutdownCalls = 0) ∧
      s1.shutdownCalls ≤ 1 := by
  have hinv := run_inv evs _ s (ListenAndServe_inv ctxDone srv) hs
  have hcalls : ∀ t : Coordinator, t.Inv → t.shutdownCalls ≤ 1 ∧
      (0 < t.shutdownCalls → t.ctxDone = true) := by
    intro t ht
    by_cases hw : t.watcher = .waiting
    · have := ht.1 hw
      exact ⟨by omega, by intro h; omega⟩
    · have := ht.2.1 hw
      exact ⟨by omega, fun _ => this.2⟩
  refine ⟨rfl, (hcalls s hinv).1, (hcalls s hinv).2, hinv.2.2, ?_⟩
  intro ev s1 hstep
  have hinv1 := step_inv s s1 ev hinv hstep
  refine ⟨step_rank s s1 ev hstep, ?_, ?_, (hcalls s1 hinv1).1⟩
  · intro h0 h1
    obtain ⟨hev, hc, hn, hw⟩ := step_serving_to_shuttingDown s s1 ev hstep h0 h1
    have h1le := (hcalls s1 hinv1).1
    exact ⟨hev, hc, by omega, by omega, hw⟩
  · intro hlt
    have h1le := (hcalls s1 hinv1).1
    have h0 : s.shutdownCalls = 0 := by omega
    refine ⟨?_, h0⟩
    have hpos : 0 < s1.shutdownCalls := by omega
    have hw1 : s1.watcher ≠ .waiting := by
      intro hw
      have := hinv1.1 hw
      omega
    have hw0 : s.watcher = .waiting := by
      by_contra hne
      have := (hinv.2.1 hne).1
      omega
    obtain ⟨cd, wt, sv, n, ex, lg⟩ := s
    simp only at hw0 h0
    subst hw0
    cases ev with
    | cancel =>
      simp only [Coordinator.step] at hstep
      split_ifs at hstep
      simp at hstep
      subst hstep
      simp at hw1
    | wake =>
      simp only [Coordinator.step] at hstep
      split_ifs at hstep with hex hc
      exact hc
    | shutdownReturns err =>
      simp only [Coordinator.step] at hstep
      split_ifs at hstep
    | serveReturns e =>
      simp only [Coordinator.step] at hstep
      split_ifs at hstep
      cases sv <;> simp at hstep
      subst hstep
      simp at hw1

/-- C9 on the run where `ctx` is cancelled and the goroutine wakes up. -/
theorem ListenAndServe_lifecycle_forward_witness :
    (ListenAndServe false sampleServer).lifecycle = .Serving ∧
    sampleShuttingDown.lifecycle = .ShuttingDown ∧
    sampleShuttingDown.shutdownCalls ≤ 1 ∧
    (∀ g, sampleShuttingDown.watcher = .inShutdown g → g = 1000000000) :=
  ⟨(ListenAndServe_lifecycle_forward false sampleServer [.cancel, .wake] sampleShuttingDown
      (by decide)).1,
    by decide,
    (ListenAndServe_lifecycle_forward false sampleServer [.cancel, .wake] sampleShuttingDown
      (by decide)).2.1,
    (ListenAndServe_lifecycle_forward false sampleServer [.cancel, .wake] sampleShuttingDown
      (by decide)).2.2.2.1⟩

/-- C5 fails: when `srv.Shutdown` returns `context.DeadlineExceeded`, the
process is terminated. If `srv.ListenAndServe` had returned by then, what
`ListenAndServe` returned is `http.ErrServerClosed`, not the failure; if it
had not, `ListenAndServe` returns nothing at all. -/
theorem shutdown_failure_terminates_process :
    (((ListenAndServe false sampleServer).run
        [.cancel, .wake, .serveReturns .ErrServerClosed,
          .shutdownReturns (some .DeadlineExceeded)]).map
      (fun s => (s.exited, s.returnValue, s.watcher)))
      = some (true, some .ErrServerClosed, .fatal .DeadlineExceeded) ∧
    (((ListenAndServe false sampleServer).run
        [.cancel, .wake, .shutdownReturns (some .DeadlineExceeded)]).map
      (fun s => (s.exited, s.returnValue, s.watcher)))
      = some (true, none, .fatal .DeadlineExceeded) ∧
    ((ListenAndServe false sampleServer).run
        [.cancel, .wake, .shutdownReturns (some .DeadlineExceeded),
          .serveReturns .ErrServerClosed]) = none := by
  decide

/-- C5 as amended: when `srv.Shutdown` fails with `e` the goroutine logs `e`
and terminates the process (`log.Fatal`); the value returned by
`ListenAndServe` is not touched by that step, nothing happens afterwards,
and the only step that makes `ListenAndServe` return a value is the return
of `srv.ListenAndServe`, whose error it passes on. -/
theorem shutdown_failure_is_fatal (s : Coordinator) (g : Duration) (e : Error)
    (hw : s.watcher = .inShutdown g) (hex : s.exited = false) :
    (∃ s1, s.step (.shutdownReturns (some e)) = some s1 ∧
      s1.exited = true ∧ s1.watcher = .fatal e ∧ s1.returnValue = s.returnValue ∧
      s1.log = s.log ++ [toString (repr e)] ∧ ∀ ev, s1.step ev = none) ∧
    (∀ (ev : Event) (s2 : Coordinator), s.step ev = some s2 →
      s2.returnValue ≠ s.returnValue →
      ∃ e1, ev = .serveReturns e1 ∧ s2.returnValue = some e1) := by
  obtain ⟨cd, wt, sv, n, ex, lg⟩ := s
  simp only at hw hex
  subst hw hex
  constructor
  · refine ⟨(⟨cd, .fatal e, sv, n, true, lg ++ [toString (repr e)]⟩ : Coordinator),
      by simp [Coordinator.step], rfl, rfl, rfl, rfl, ?_⟩
    intro ev
    cases ev <;> simp [Coordinator.step]
  · intro ev s2 hstep hne
    cases ev with
    | cancel =>
      simp [Coordinator.step] at hstep
      subst hstep
      exact absurd rfl hne
    | wake => simp [Coordinator.step] at hstep
    | shutdownReturns err =>
      cases err <;> simp [Coordinator.step] at hstep <;> subst hstep <;> exact absurd rfl hne
    | serveReturns e1 =>
      cases sv with
      | running =>
        simp [Coordinator.step] at hstep
        subst hstep
        exact ⟨e1, rfl, rfl⟩
      | returned e2 b => simp [Coordinator.step] at hstep

/-- C5 as amended, on the state where `srv.Shutdown` is running: a failure
with `context.DeadlineExceeded` terminates the process and leaves
`ListenAndServe` without a return value. -/
theorem shutdown_failure_is_fatal_witness :
    ∃ s1, sampleShuttingDown.step (.shutdownReturns (some .DeadlineExceeded)) = some s1 ∧
      s1.exited = true ∧ s1.watcher = .fatal .DeadlineExceeded ∧
      s1.returnValue = sampleShuttingDown.returnValue ∧
      s1.log = sampleShuttingDown.log ++ [toString (repr Error.DeadlineExceeded)] ∧
      ∀ ev, s1.step ev = none :=
  (shutdown_failure_is_fatal sampleShuttingDown 1000000000 .DeadlineExceeded rfl rfl).1

end Faas
